import Mathlib

/-!
Shallow embedding of the Stratasys printer monitor core
(custom_components/stratasys/printer.py): the protocol sequencer
`_get_printer_data`, the status parser `_parse_tcl_status`, and the
retry loop `get_status` / `connect`.

Bytes are modelled as `List Nat` (ASCII codes); decoded text as
`List Char`.  Python `float` values produced by the parser are modelled
as exact rationals of the decimal literal (the literals exercised here,
e.g. 3.5, are exactly representable, so no rounding is lost).
-/

deriving instance DecidableEq for Except

/-- ASCII codes of a string literal, for modelling Python `bytes`. -/
def asc (s : String) : List Nat := s.data.map Char.toNat

/-- Characters of a string literal, for modelling Python `str`. -/
def chrs (s : String) : List Char := s.data

/-- Python ASCII whitespace, as stripped by `bytes.strip()`. -/
def isWSb (c : Nat) : Bool :=
  c == 32 || c == 9 || c == 10 || c == 13 || c == 11 || c == 12

/-- `bytes.strip()`: drop whitespace from both ends. -/
def pyStripB (l : List Nat) : List Nat :=
  ((l.dropWhile isWSb).reverse.dropWhile isWSb).reverse

/-- Python `bytes.split(sep)` for a single-byte separator: keeps empty
pieces between consecutive separators, always returns at least one piece. -/
def pySplitB (sep : Nat) : List Nat → List (List Nat)
  | [] => [[]]
  | c :: rest =>
    if c == sep then [] :: pySplitB sep rest
    else
      match pySplitB sep rest with
      | h :: t => (c :: h) :: t
      | [] => [[c]]

/-- ASCII decimal digit byte. -/
def isDigitB (c : Nat) : Bool := 48 ≤ c && c ≤ 57

/-- Tail of a Python integer-literal digit run: digits with single
underscores allowed only between digits. -/
def pyDigitTail : List Nat → Bool
  | [] => true
  | c :: rest =>
    if isDigitB c then pyDigitTail rest
    else if c == 95 then
      match rest with
      | d :: rest2 => isDigitB d && pyDigitTail rest2
      | [] => false
    else false

/-- A Python integer-literal digit run: nonempty, starts with a digit,
underscores only between digits. -/
def pyDigitRun : List Nat → Bool
  | [] => false
  | c :: rest => isDigitB c && pyDigitTail rest

/-- Numeric value of a digit run, ignoring underscores. -/
def digitsValB (l : List Nat) : Nat :=
  (l.filter isDigitB).foldl (fun a c => a * 10 + (c - 48)) 0

/-- Python `int(bytes)`: strip surrounding whitespace, optional sign,
then a digit run (ASCII model).  `none` models `ValueError`. -/
def parsePyInt (b : List Nat) : Option Int :=
  match pyStripB b with
  | 43 :: rest => if pyDigitRun rest then some (digitsValB rest) else none
  | 45 :: rest => if pyDigitRun rest then some (-(digitsValB rest : Int)) else none
  | t => if pyDigitRun t then some (digitsValB t) else none

/-- printer.py lines 119-127 (step 7): reject an empty reply, then
`int(size_data.strip().split(b' ')[0])`; `ValueError`/`IndexError`
become `ProtocolError`, modelled as `Except.error ()`. -/
def parseSize (size_data : List Nat) : Except Unit Int :=
  if size_data.isEmpty then .error ()
  else
    match parsePyInt ((pySplitB 32 (pyStripB size_data)).headD []) with
    | some n => .ok n
    | none => .error ()

/-- Python `pat in l` for bytes: substring containment. -/
def bContains (pat : List Nat) : List Nat → Bool
  | [] => pat.isEmpty
  | c :: rest => pat.isPrefixOf (c :: rest) || bContains pat rest

/-- The bulk-transfer completion sentinel `b'Transferred:'`. -/
def sentinelB : List Nat := asc "Transferred:"

/-- `b'Transferred:' in chunk`. -/
def hasSentinel (l : List Nat) : Bool := bContains sentinelB l

/-- printer.py lines 136-145: the chunk-receive loop.
`script` is the sequence of results of successive `recv(1460)` calls;
an exhausted script models a blocking read that times out (exception).
Returns the outcome together with the unconsumed script. -/
def recvLoop (expected : Int) (script : List (List Nat)) (data : List Nat) :
    Except Unit (List Nat) × List (List Nat) :=
  if (data.length : Int) < expected then
    match script with
    | [] => (.error (), [])
    | c :: rest =>
      let c := c.take 1460
      if c.isEmpty then
        if data.isEmpty then (.error (), rest) else (.ok data, rest)
      else
        let data2 := data ++ c
        if hasSentinel c then (.ok data2, rest)
        else recvLoop expected rest data2
  else (.ok data, script)

/-- The configuration fields used by the sequencer (PrinterConfig). -/
structure Config where
  timeout : Rat
  packet_size : Nat
deriving DecidableEq

/-- One TCP socket, as seen by the sequencer: its current timeout, the
scripted results of successive `recv` calls, and the frames written so
far (each right-padded with zero bytes to `packet_size`). -/
structure Sock where
  timeout : Rat
  script : List (List Nat)
  sent : List (List Nat)
deriving DecidableEq

/-- `_send_packet` without an expected response: pad with zero bytes to
`packet_size` and write. -/
def sendS (cfg : Config) (s : Sock) (frame : List Nat) : Sock :=
  { s with sent := s.sent ++ [frame ++ List.replicate (cfg.packet_size - frame.length) 0] }

/-- `sock.recv(n)`: pop the next scripted result (truncated to `n`);
an exhausted script models a read that raises (timeout). -/
def recvS (s : Sock) (n : Nat) : Except Unit (List Nat) × Sock :=
  match s.script with
  | [] => (.error (), s)
  | c :: rest => (.ok (c.take n), { s with script := rest })

/-- Decimal ASCII encoding of a natural, for the confirmation frame. -/
def ascOfNat (n : Nat) : List Nat := (Nat.toDigits 10 n).map Char.toNat

/-- printer.py lines 94-152: the protocol sequence body (the contents of
the `try` block of `_get_printer_data`).  The inter-step delays are
pure waiting and have no effect on the modelled state.  Every raise —
`ProtocolError` or a socket error — is `Except.error ()`. -/
def getPrinterDataBody (cfg : Config) (s : Sock) : Except Unit (List Nat) × Sock :=
  let s := sendS cfg s (asc "GetFile")
  let s := sendS cfg s (asc "status.sts")
  let s := sendS cfg s (asc "NA")
  match recvS s cfg.packet_size with
  | (.error _, s) => (.error (), s)
  | (.ok sendfile, s) =>
    if !(bContains (asc "SendFile") sendfile) then (.error (), s)
    else
      match recvS s cfg.packet_size with
      | (.error _, s) => (.error (), s)
      | (.ok na, s) =>
        if !(bContains (asc "NA") na) then (.error (), s)
        else
          let s := sendS cfg s (asc "OK")
          match recvS s cfg.packet_size with
          | (.error _, s) => (.error (), s)
          | (.ok size_data, s) =>
            match parseSize size_data with
            | .error _ => (.error (), s)
            | .ok expected =>
              let s := sendS cfg s (asc "OK")
              let s := { s with timeout := 5 }
              match recvLoop expected s.script [] with
              | (.error _, rest) => (.error (), { s with script := rest })
              | (.ok data, rest) =>
                let s := { s with script := rest }
                let s := sendS cfg s (asc "Transferred: " ++ ascOfNat data.length)
                (.ok data, s)

/-- printer.py `_get_printer_data` with the `finally` block of lines
157-159: whatever the body's outcome, if a socket exists its timeout is
set back to `config.timeout`. -/
def getPrinterData (cfg : Config) (sock : Option Sock) :
    Except Unit (List Nat) × Option Sock :=
  match sock with
  | none => (.error (), none)
  | some s =>
    let r := getPrinterDataBody cfg s
    (r.1, some { r.2 with timeout := cfg.timeout })

/-- Scripted behaviour of one `get_status` attempt: whether `connect`
would succeed, and whether `_get_printer_data` (plus parse) would
succeed afterwards. -/
structure Outcome where
  connectOk : Bool
  fetchOk : Bool
deriving DecidableEq

/-- The monitor state observed by the retry loop, plus open/close
counters for the test double of §8 of the spec: `opens` counts
`sock.connect(...)` calls, `closes` counts `sock.close()` calls. -/
structure MState where
  sockPresent : Bool
  connected : Bool
  opens : Nat
  closes : Nat
deriving DecidableEq

/-- printer.py lines 254-272, `connect`: close any previous socket,
create a fresh one, attempt the TCP connect; on failure set
`connected = False` and raise (returned flag `false`). -/
def connectM (st : MState) (ok : Bool) : MState × Bool :=
  let st := if st.sockPresent then { st with closes := st.closes + 1, sockPresent := false } else st
  let st := { st with sockPresent := true, opens := st.opens + 1 }
  if ok then ({ st with connected := true }, true)
  else ({ st with connected := false }, false)

/-- printer.py lines 237-252, `get_status`: one `Outcome` per loop
iteration; `retry_delay` sleeps have no modelled effect.  Returns the
final state and whether a status was returned (`false` = the final
attempt's `PrinterError` propagated). -/
def get_status_loop : List Outcome → MState → MState × Bool
  | [], st => (st, false)
  | o :: rest, st =>
    let p := if st.connected then (st, true) else connectM st o.connectOk
    if p.2 then
      if o.fetchOk then (p.1, true)
      else get_status_loop rest p.1
    else get_status_loop rest p.1

/-- Python ASCII whitespace on decoded text (`str.strip`, `str.split()`
with no argument). -/
def isWSc (c : Char) : Bool :=
  c == ' ' || c == '\t' || c == '\n' || c == '\r' || c == '\x0b' || c == '\x0c'

/-- `str.strip()`. -/
def pyStripC (l : List Char) : List Char :=
  ((l.dropWhile isWSc).reverse.dropWhile isWSc).reverse

/-- `str.split('\n')`-style split on one character, keeping empties. -/
def pySplitC (sep : Char) : List Char → List (List Char)
  | [] => [[]]
  | c :: rest =>
    if c == sep then [] :: pySplitC sep rest
    else
      match pySplitC sep rest with
      | h :: t => (c :: h) :: t
      | [] => [[c]]

/-- `str.split()` with no argument: split on whitespace runs, dropping
empty pieces. -/
def pySplitWS (l : List Char) : List (List Char) :=
  ((l.splitOnP isWSc).filter (fun p => !p.isEmpty))

/-- `str.find(c)` for a single character: index or -1. -/
def pyFindC (l : List Char) (c : Char) : Int :=
  match l.findIdx? (fun x => x == c) with
  | some i => (i : Int)
  | none => -1

/-- Python slice `l[a:b]` with clamping and negative-index wrap. -/
def pySlice (l : List Char) (a b : Int) : List Char :=
  let n : Int := l.length
  let a2 := (if a < 0 then max (n + a) 0 else min a n).toNat
  let b2 := (if b < 0 then max (n + b) 0 else min b n).toNat
  (l.take b2).drop a2

/-- ASCII `str.lower()`. -/
def pyLowerC (l : List Char) : List Char := l.map Char.toLower

/-- Numeric value of a decimal digit list. -/
def digitsValC (l : List Char) : Nat :=
  l.foldl (fun a c => a * 10 + (c.toNat - 48)) 0

/-- A value stored in the parse result.  Dicts and lists are mutable
Python objects with identity, held in arenas and referenced by index
(`dref` / `lref`); scalars are immutable. -/
inductive PVal where
  | str : List Char → PVal
  | int : Nat → PVal
  | float : Nat → Nat → Nat → PVal
  | bool : Bool → PVal
  | dref : Nat → PVal
  | lref : Nat → PVal
deriving DecidableEq

/-- The rational denoted by a stored float `intPart.fracPart` with
`fracLen` fractional digits (exact value of the decimal literal). -/
def floatVal (intPart fracPart fracLen : Nat) : Rat :=
  (intPart : Rat) + (fracPart : Rat) / (10 : Rat) ^ fracLen

/-- Parser state: the dict arena (`result` is dict 0), the list arena,
the `current_section` reference, and the `section_stack` (top first). -/
structure PEnv where
  dicts : List (List (List Char × PVal))
  lists : List (List PVal)
  current : PVal
  stack : List PVal
deriving DecidableEq

/-- Lookup in an association list (Python dict, insertion-ordered). -/
def assocGet (l : List (List Char × PVal)) (k : List Char) : Option PVal :=
  match l.find? (fun p => p.1 == k) with
  | some p => some p.2
  | none => none

/-- Python `d[k] = v`: replace in place if present, else append. -/
def assocSet (l : List (List Char × PVal)) (k : List Char) (v : PVal) :
    List (List Char × PVal) :=
  if l.any (fun p => p.1 == k) then l.map (fun p => if p.1 == k then (k, v) else p)
  else l ++ [(k, v)]

/-- Write `k ↦ v` into dict `id` of the arena. -/
def dictWrite (ds : List (List (List Char × PVal))) (id : Nat) (k : List Char)
    (v : PVal) : List (List (List Char × PVal)) :=
  ds.set id (assocSet (ds.getD id []) k v)

/-- `current_section[key] = value` (printer.py line 229): works when
`current_section` is a dict; assigning a string key into a list or a
scalar raises `TypeError`. -/
def assignCur (env : PEnv) (k : List Char) (v : PVal) : Except Unit PEnv :=
  match env.current with
  | .dref id => .ok { env with dicts := dictWrite env.dicts id k v }
  | _ => .error ()

/-- printer.py line 215: `key = line[1:line.find(' ')]`. -/
def keyOf (line : List Char) : List Char := pySlice line 1 (pyFindC line ' ')

/-- printer.py line 216: `value = line[line.find(' ') + 1:].strip()`. -/
def valueOf (line : List Char) : List Char :=
  pyStripC (line.drop (pyFindC line ' ' + 1).toNat)

/-- printer.py lines 190-229: process one (already stripped, nonempty)
line of the status text.  `Except.error ()` models an exception escaping
to the handler at line 231. -/
def stepLine (env : PEnv) (line : List Char) : Except Unit PEnv :=
  if line.isEmpty || line.head? == some '#' then .ok env
  else if (chrs "set machineStatus(").isPrefixOf line then
    let sname := pySlice line (pyFindC line '(' + 1) (pyFindC line ')')
    match assocGet (env.dicts.getD 0 []) sname with
    | some v => .ok { env with current := v }
    | none =>
      let nid := env.dicts.length
      .ok { env with dicts := dictWrite env.dicts 0 sname (.dref nid) ++ [[]],
                     current := .dref nid }
  else if line.head? == some '\x7b' then
    let nid := env.dicts.length
    let env := { env with dicts := env.dicts ++ [[]] }
    let env :=
      match env.current with
      | .lref lid => { env with lists := env.lists.set lid (env.lists.getD lid [] ++ [PVal.dref nid]) }
      | _ => env
    .ok { env with stack := env.current :: env.stack, current := .dref nid }
  else if line.head? == some '\x7d' then
    match env.stack with
    | [] => .ok env
    | c :: rest => .ok { env with current := c, stack := rest }
  else if line.contains '-' then
    let key := keyOf line
    let rawv := valueOf line
    if rawv.head? == some '\x7b' then
      let inner := pySlice rawv 1 (-1)
      if inner.contains ' ' then
        let items := (pySplitWS inner).map pyStripC
        let lid := env.lists.length
        match assignCur { env with lists := env.lists ++ [items.map PVal.str] } key (.lref lid) with
        | .ok e => .ok e
        | .error u => .error u
      else assignCur env key (.str inner)
    else if !(rawv.filter (fun c => c != '.')).isEmpty &&
        (rawv.filter (fun c => c != '.')).all Char.isDigit then
      if rawv.contains '.' then
        if rawv.count '.' == 1 then
          let ip := rawv.takeWhile (fun c => c != '.')
          let fp := (rawv.dropWhile (fun c => c != '.')).drop 1
          assignCur env key (.float (digitsValC ip) (digitsValC fp) fp.length)
        else .error ()
      else assignCur env key (.int (digitsValC rawv))
    else if pyLowerC rawv == chrs "true" then assignCur env key (.bool true)
    else if pyLowerC rawv == chrs "false" then assignCur env key (.bool false)
    else assignCur env key (.str rawv)
  else .ok env

/-- Run the parser's line loop, stopping at the first exception. -/
def runLines : List (List Char) → PEnv → Except Unit PEnv
  | [], env => .ok env
  | l :: rest, env =>
    match stepLine env l with
    | .ok e => runLines rest e
    | .error u => .error u

/-- The parse result: dict arena (root is dict 0) and list arena. -/
structure ParseResult where
  dicts : List (List (List Char × PVal))
  lists : List (List PVal)
deriving DecidableEq

/-- The initial parser state: `result = {}`, `current_section = result`,
empty stack. -/
def initEnv : PEnv := ⟨[[]], [], .dref 0, []⟩

/-- The line preprocessing of printer.py line 188. -/
def linesOf (input : List Char) : List (List Char) :=
  ((pySplitC '\n' input).map pyStripC).filter (fun l => !l.isEmpty)

/-- printer.py `_parse_tcl_status` (lines 181-235): run the loop; any
internal exception degrades to a fresh empty mapping (`return {}`). -/
def parseTcl (input : List Char) : ParseResult :=
  match runLines (linesOf input) initEnv with
  | .ok e => ⟨e.dicts, e.lists⟩
  | .error _ => ⟨[[]], []⟩

/-- The root mapping (`result`) of a parse result. -/
def rootDict (r : ParseResult) : List (List Char × PVal) := r.dicts.getD 0 []

/-- Top-level lookup in a parse result. -/
def rootGet (r : ParseResult) (k : List Char) : Option PVal :=
  assocGet (rootDict r) k


theorem pySplitB_ne_nil (sep : Nat) (l : List Nat) : pySplitB sep l ≠ [] := by
  cases l with
  | nil => simp [pySplitB]
  | cons c rest =>
    rw [pySplitB]
    by_cases h : (c == sep) = true
    · simp [h]
    · simp only [h, if_false, Bool.false_eq_true]
      split <;> simp

theorem pySplitB_headD (sep : Nat) (l : List Nat) :
    (pySplitB sep l).headD [] = l.takeWhile (fun c => c != sep) := by
  induction l with
  | nil => rfl
  | cons c rest ih =>
    rw [pySplitB]
    by_cases h : (c == sep) = true
    · have hb : (c != sep) = false := by simp [bne, h]
      simp [h, List.takeWhile_cons, hb]
    · have hb : (c != sep) = true := by simp [bne, h]
      cases hm : pySplitB sep rest with
      | nil => exact absurd hm (pySplitB_ne_nil sep rest)
      | cons hd t =>
        have ih2 : hd = rest.takeWhile (fun x => x != sep) := by
          rw [hm] at ih; simpa using ih
        simp [h, hm, List.takeWhile_cons, hb, ih2]

/-- C3 counterexample: at step 7 the code accepts a signed token
(`b'-5'` yields `expectedSize = -5`, no ProtocolError), and rejects a
reply whose first whitespace-delimited (but not space-delimited) token
is a number (`b'12\n34'` raises, though the claim says expectedSize 12). -/
theorem c3_counterexample :
    parseSize (asc "-5") = .ok (-5) ∧ (-5 : Int) < 0 ∧
    parseSize (asc "12\n34") = .error () ∧ parsePyInt (asc "12") = some 12 := by
  refine ⟨by decide, by decide, by decide, by decide⟩

/-- Claim C3 (amended): step 7 fails iff the reply is empty or the first
space-delimited token of the stripped reply is not a Python integer
literal (optional sign, digits with underscores); otherwise
`expectedSize` is that token's value, which may be negative. -/
theorem c3_amended (s : List Nat) (n : Int) :
    parseSize s = .ok n ↔
      s ≠ [] ∧ parsePyInt ((pyStripB s).takeWhile (fun c => c != 32)) = some n := by
  unfold parseSize
  rw [pySplitB_headD]
  by_cases hs : s = []
  · subst hs; simp
  · have he : s.isEmpty = false := by simp [List.isEmpty_iff, hs]
    rw [he]
    simp only [Bool.false_eq_true, if_false, hs, ne_eq, not_false_eq_true, true_and]
    cases h : parsePyInt ((pyStripB s).takeWhile (fun c => c != 32)) <;> simp [h]

/-- Claim C4: in the chunk-receive loop, an empty first receive with no
bytes accumulated raises ProtocolError, while an empty receive after
some bytes were accumulated stops the transfer and returns those bytes. -/
theorem c4_empty_chunk :
    (∀ (expected : Int) (rest : List (List Nat)), 0 < expected →
        recvLoop expected ([] :: rest) [] = (.error (), rest)) ∧
    (∀ (expected : Int) (rest : List (List Nat)) (data : List Nat),
        data ≠ [] → (data.length : Int) < expected →
        recvLoop expected ([] :: rest) data = (.ok data, rest)) := by
  constructor
  · intro expected rest h
    rw [recvLoop, if_pos (by simpa using h)]
    simp
  · intro expected rest data hd hlt
    rw [recvLoop, if_pos hlt]
    have : data.isEmpty = false := by simp [List.isEmpty_iff, hd]
    simp [this]

theorem c4_empty_chunk_witness :
    recvLoop 1 ([] :: []) [] = (.error (), []) ∧
    recvLoop 5 ([] :: []) [7] = (.ok [7], []) :=
  ⟨c4_empty_chunk.1 1 [] (by decide), c4_empty_chunk.2 5 [] [7] (by decide) (by decide)⟩

/-- Claim C9: on every exit path of `_get_printer_data` — success or any
error — when a socket exists, its timeout is set back to the configured
short timeout by the `finally` block, unconditionally on the outcome. -/
theorem c9_timeout_restore (cfg : Config) (s : Sock) :
    ∃ s2, (getPrinterData cfg (some s)).2 = some s2 ∧ s2.timeout = cfg.timeout :=
  ⟨{ (getPrinterDataBody cfg s).2 with timeout := cfg.timeout }, rfl, rfl⟩

/-- C1 counterexample: a handshake whose replies follow the step table
(`SendFile`, `NA`, size `10`) and whose single bulk chunk is 20
sentinel-free bytes ends with a payload of length 20, not the parsed
`expectedSize` 10 — the loop appends whole chunks and can overshoot. -/
theorem c1_counterexample :
    (getPrinterData ⟨1, 64⟩ (some ⟨1, [asc "SendFile", asc "NA", asc "10",
        List.replicate 20 65], []⟩)).1 = .ok (List.replicate 20 65) ∧
    (List.replicate 20 65).length ≠ 10 ∧
    parseSize (asc "10") = .ok 10 ∧
    hasSentinel (List.replicate 20 65) = false := by
  refine ⟨by decide, by decide, by decide, by decide⟩

/-- Claim C1 (amended): when no received chunk is empty and none
contains the `Transferred:` sentinel, the chunk-receive loop terminates
only by the size condition, so the accumulated payload has length at
least (not exactly) `expectedSize`; early stops happen only on a
sentinel chunk or an empty receive after some bytes accumulated. -/
theorem c1_amended (expected : Int) (script : List (List Nat))
    (data out : List Nat) (rest : List (List Nat))
    (hchunks : ∀ c ∈ script, hasSentinel (c.take 1460) = false ∧ c.take 1460 ≠ [])
    (hok : recvLoop expected script data = (.ok out, rest)) :
    expected ≤ (out.length : Int) := by
  induction script generalizing data with
  | nil =>
    by_cases h : (data.length : Int) < expected
    · rw [recvLoop, if_pos h] at hok
      simp at hok
    · rw [recvLoop, if_neg h] at hok
      obtain ⟨h1, -⟩ := Prod.mk.injEq .. ▸ hok
      obtain rfl : data = out := by simpa using congrArg (fun e => e) h1
      omega
  | cons c rest2 ih =>
    by_cases h : (data.length : Int) < expected
    · rw [recvLoop, if_pos h] at hok
      obtain ⟨hs, hne⟩ := hchunks c (List.mem_cons_self c rest2)
      have hemp : (c.take 1460).isEmpty = false := by simp [List.isEmpty_iff, hne]
      simp only [hemp, Bool.false_eq_true, if_false, hs] at hok
      exact ih _ (fun d hd => hchunks d (List.mem_cons_of_mem c hd)) hok
    · rw [recvLoop, if_neg h] at hok
      obtain ⟨h1, -⟩ := Prod.mk.injEq .. ▸ hok
      obtain rfl : data = out := by simpa using congrArg (fun e => e) h1
      omega

theorem c1_amended_witness : (1 : Int) ≤ (([65] : List Nat).length : Int) :=
  c1_amended 1 [[65]] [] [65] [] (by decide) (by decide)

theorem get_status_loop_reuse (n : Nat) :
    ∀ st : MState, st.connected = true →
      get_status_loop (List.replicate n ⟨true, false⟩) st = (st, false) := by
  induction n with
  | zero => intro st _; rfl
  | succ n ih =>
    intro st h
    rw [List.replicate_succ, get_status_loop]
    simp only [h, if_true]
    exact ih st h

theorem get_status_loop_connfail (n : Nat) :
    ∀ o c : Nat,
      get_status_loop (List.replicate n ⟨false, false⟩) ⟨true, false, o, c⟩ =
        (⟨true, false, o + n, c + n⟩, false) := by
  induction n with
  | zero => intro o c; rfl
  | succ n ih =>
    intro o c
    rw [List.replicate_succ]
    show get_status_loop (List.replicate n ⟨false, false⟩) ⟨true, false, o + 1, c + 1⟩ = _
    rw [ih (o + 1) (c + 1)]
    have e1 : o + 1 + n = o + (n + 1) := by omega
    have e2 : c + 1 + n = c + (n + 1) := by omega
    rw [e1, e2]

/-- C2 counterexample: `retry_attempts = 2` where the connect of attempt
1 succeeds and both fetches fail with a printer error: only ONE
connection is opened (`opens = 1`), none closed between attempts —
attempt 2 reuses the connection because `connected` stays `True` after a
protocol failure. -/
theorem c2_counterexample :
    get_status_loop [⟨true, false⟩, ⟨true, false⟩] ⟨false, false, 0, 0⟩ =
      (⟨true, true, 1, 0⟩, false) ∧ (1 : Nat) ≠ 2 := by
  refine ⟨by decide, by decide⟩

/-- Claim C2 (amended): a fresh connection is opened only for attempts
that begin disconnected.  With `retry_attempts = n+1` and every attempt
failing after a successful connect, exactly one connection is opened and
never closed between attempts (reuse); when instead every attempt fails
inside `connect`, n+1 connect calls occur and each prior socket is
closed by the next attempt's `connect` (n closes). -/
theorem c2_amended (n : Nat) :
    get_status_loop (List.replicate (n + 1) ⟨true, false⟩) ⟨false, false, 0, 0⟩ =
      (⟨true, true, 1, 0⟩, false) ∧
    get_status_loop (List.replicate (n + 1) ⟨false, false⟩) ⟨false, false, 0, 0⟩ =
      (⟨true, false, n + 1, n⟩, false) := by
  constructor
  · rw [List.replicate_succ]
    show get_status_loop (List.replicate n ⟨true, false⟩) ⟨true, true, 1, 0⟩ = _
    exact get_status_loop_reuse n ⟨true, true, 1, 0⟩ rfl
  · rw [List.replicate_succ]
    show get_status_loop (List.replicate n ⟨false, false⟩) ⟨true, false, 1, 0⟩ = _
    rw [get_status_loop_connfail n 1 0]
    have e1 : 1 + n = n + 1 := Nat.add_comm 1 n
    have e2 : 0 + n = n := Nat.zero_add n
    rw [e1, e2]

/-- Claim C7: the parser's typing rules on concrete key-value lines:
integer, float (3.5 stored as the exact decimal 3+5/10 = 7/2), boolean,
sequence of strings, braced single string, and bare string, each stored
under key `foo` in the current container (here the root). -/
theorem c7_typing :
    rootGet (parseTcl (chrs "-foo 3")) (chrs "foo") = some (.int 3) ∧
    rootGet (parseTcl (chrs "-foo 3.5")) (chrs "foo") = some (.float 3 5 1) ∧
    floatVal 3 5 1 = 7 / 2 ∧
    rootGet (parseTcl (chrs "-foo true")) (chrs "foo") = some (.bool true) ∧
    parseTcl (chrs "-foo \x7ba b c\x7d") =
      ⟨[[(chrs "foo", .lref 0)]],
       [[.str (chrs "a"), .str (chrs "b"), .str (chrs "c")]]⟩ ∧
    rootGet (parseTcl (chrs "-foo \x7bbar\x7d")) (chrs "foo") = some (.str (chrs "bar")) ∧
    rootGet (parseTcl (chrs "-foo bar")) (chrs "foo") = some (.str (chrs "bar")) := by
  refine ⟨by decide, by decide, by norm_num [floatVal], by decide, by decide,
    by decide, by decide⟩

/-- C5 counterexample: a value of digits with two dots (`1.2.3`) is NOT
stored as a string — the numeric branch's float conversion raises, the
catch-all returns an empty mapping, and the well-formed line `-a 1` of
the same input (which alone parses fine) is lost. -/
theorem c5_counterexample :
    parseTcl (chrs "-a 1\n-b 1.2.3") = ⟨[[]], []⟩ ∧
    rootGet (parseTcl (chrs "-a 1\n-b 1.2.3")) (chrs "a") = none ∧
    rootGet (parseTcl (chrs "-a 1")) (chrs "a") = some (.int 1) := by
  refine ⟨by decide, by decide, by decide⟩

/-- C6 counterexample: the line `a-b c` has no leading `-key value`
shape (it does not begin with `-`), is no comment, header, or brace
line, yet the parser adds the entry `"-b" ↦ "c"`: the code tests
`'-' in line`, not a leading dash. -/
theorem c6_counterexample :
    rootGet (parseTcl (chrs "a-b c")) (chrs "-b") = some (.str (chrs "c")) ∧
    (chrs "a-b c").head? ≠ some '-' ∧
    parseTcl (chrs "a-b c") ≠ ⟨[[]], []⟩ := by
  refine ⟨by decide, by decide, by decide⟩

/-- C10 counterexample: after `-general {a b}` stores a sequence at the
root and `set machineStatus(general)` rebinds the current container to
that sequence, a `{` line APPENDS an anonymous mapping to it (the
allegedly unreachable branch), and the top-level value `general` is a
sequence, not a mapping. -/
theorem c10_counterexample :
    parseTcl (chrs "-general \x7ba b\x7d\nset machineStatus(general)\n\x7b\n-x 1") =
      ⟨[[(chrs "general", .lref 0)], [(chrs "x", .int 1)]],
       [[.str (chrs "a"), .str (chrs "b"), .dref 1]]⟩ ∧
    rootGet (parseTcl (chrs "-general \x7ba b\x7d\nset machineStatus(general)\n\x7b\n-x 1"))
        (chrs "general") = some (.lref 0) := by
  refine ⟨by decide, by decide⟩

/-- Claim C10 (amended): a top-level value of the returned mapping can
be a scalar (a key-value line at the root) or a sequence, and the
branch appending an anonymous mapping to a sequence container IS
reachable: a section header naming a key previously bound to a sequence
rebinds the current container to that sequence, and a following `{`
line appends a fresh mapping (`dref 1`) to it. -/
theorem c10_amended :
    rootGet (parseTcl (chrs "-foo 7")) (chrs "foo") = some (.int 7) ∧
    (parseTcl (chrs "-g \x7bu v\x7d\nset machineStatus(g)\n\x7b\n-y 2")).lists.getD 0 [] =
      [.str (chrs "u"), .str (chrs "v"), .dref 1] ∧
    (parseTcl (chrs "-g \x7bu v\x7d\nset machineStatus(g)\n\x7b\n-y 2")).dicts.getD 1 [] =
      [(chrs "y", .int 2)] := by
  refine ⟨by decide, by decide, by decide⟩

/-- Claim C6 (amended): a line that is not a comment or header line, does
not start with a brace, and contains NO `-` anywhere is silently
ignored — no entry added, no state change.  (Lines containing `-` in
any position, not only leading, are treated as key-value lines; see the
counterexample.) -/
theorem c6_amended (env : PEnv) (line : List Char)
    (hp : (chrs "set machineStatus(").isPrefixOf line = false)
    (hb : (line.head? == some '\x7b') = false)
    (hc : (line.head? == some '\x7d') = false)
    (hd : line.contains '-' = false) :
    stepLine env line = .ok env := by
  rw [stepLine]
  by_cases h0 : (line.isEmpty || line.head? == some '#') = true
  · rw [if_pos h0]
  · rw [if_neg h0, if_neg (by simp [hp]), if_neg (by simp [hb]), if_neg (by simp [hc]),
      if_neg (by rw [hd]; exact Bool.false_ne_true)]

theorem c6_amended_witness : stepLine initEnv (chrs "hello world") = .ok initEnv :=
  c6_amended initEnv (chrs "hello world") (by decide) (by decide) (by decide) (by decide)

/-- Claim C8: a `}` line with an empty section stack is a no-op, and for
every input the parser either returns the result of a completed run or
degrades any internal exception to the fresh empty mapping — it never
propagates an error. -/
theorem c8_robust :
    (∀ (env : PEnv) (line : List Char), line.head? = some '\x7d' → env.stack = [] →
        stepLine env line = .ok env) ∧
    (∀ input : List Char, parseTcl input = ⟨[[]], []⟩ ∨
        ∃ e, runLines (linesOf input) initEnv = .ok e ∧
          parseTcl input = ⟨e.dicts, e.lists⟩) := by
  constructor
  · intro env line h hstack
    cases line with
    | nil => simp at h
    | cons a t =>
      have ha : a = '\x7d' := by simpa using h
      subst ha
      have h1 : (('\x7d' :: t).isEmpty || ('\x7d' :: t).head? == some '#') = false := rfl
      have h2 : (chrs "set machineStatus(").isPrefixOf ('\x7d' :: t) = false := rfl
      have h3 : (('\x7d' :: t).head? == some '\x7b') = false := rfl
      have h4 : (('\x7d' :: t).head? == some '\x7d') = true := rfl
      rw [stepLine, if_neg (by simp [h1]), if_neg (by simp [h2]), if_neg (by simp [h3]),
        if_pos h4, hstack]
  · intro input
    cases h : runLines (linesOf input) initEnv with
    | ok e => exact Or.inr ⟨e, rfl, by unfold parseTcl; rw [h]⟩
    | error u => exact Or.inl (by unfold parseTcl; rw [h])

theorem c8_robust_witness : stepLine initEnv (chrs "\x7d") = .ok initEnv :=
  c8_robust.1 initEnv (chrs "\x7d") (by decide) (by decide)

/-- Claim C5 (amended): a key-value line whose value consists only of
digits and dots, with at least one digit and two or more dots, passes
the numeric test but makes the float conversion raise — the exception
escapes the line loop, and `_parse_tcl_status` returns the empty
mapping, discarding every other line of the same input (so such a value
IS fatal; negative numbers, by contrast, are stored as strings). -/
theorem c5_amended :
    (∀ (env : PEnv) (line : List Char), line.head? = some '-' →
        (∀ c ∈ valueOf line, c.isDigit = true ∨ c = '.') →
        (∃ c ∈ valueOf line, c.isDigit = true) →
        2 ≤ (valueOf line).count '.' →
        stepLine env line = .error ()) ∧
    parseTcl (chrs "set machineStatus(a)\n-good 1\n-bad 1.2.3") = ⟨[[]], []⟩ ∧
    rootGet (parseTcl (chrs "-neg -5")) (chrs "neg") = some (.str (chrs "-5")) := by
  refine ⟨?_, by decide, by decide⟩
  intro env line h1 hall hdig hdots
  cases line with
  | nil => simp at h1
  | cons a t =>
    have ha : a = '-' := by simpa using h1
    subst ha
    have k1 : (('-' :: t).isEmpty || ('-' :: t).head? == some '#') = false := rfl
    have k2 : (chrs "set machineStatus(").isPrefixOf ('-' :: t) = false := rfl
    have k3 : (('-' :: t).head? == some '\x7b') = false := rfl
    have k4 : (('-' :: t).head? == some '\x7d') = false := rfl
    have k5 : ('-' :: t).contains '-' = true := rfl
    rw [stepLine, if_neg (by simp [k1]), if_neg (by simp [k2]), if_neg (by simp [k3]),
      if_neg (by simp [k4]), if_pos k5]
    obtain ⟨c0, hc0mem, hc0dig⟩ := hdig
    have hc0ne : c0 ≠ '.' := by
      rintro rfl
      exact absurd hc0dig (by decide)
    have hv1 : ((valueOf ('-' :: t)).head? == some '\x7b') = false := by
      cases hv : valueOf ('-' :: t) with
      | nil => rw [hv] at hc0mem; simp at hc0mem
      | cons b l2 =>
        have hb := hall b (by rw [hv]; exact List.mem_cons_self b l2)
        have : b ≠ '\x7b' := by
          rintro rfl
          rcases hb with h | h
          · exact absurd h (by decide)
          · exact absurd h (by decide)
        simp [this]
    have hc0fil : c0 ∈ (valueOf ('-' :: t)).filter (fun c => c != '.') :=
      List.mem_filter.mpr ⟨hc0mem, by simp [hc0ne]⟩
    have hv2 : ((valueOf ('-' :: t)).filter (fun c => c != '.')).isEmpty = false := by
      have hne2 : (valueOf ('-' :: t)).filter (fun c => c != '.') ≠ [] :=
        List.ne_nil_of_mem hc0fil
      simp [List.isEmpty_iff, hne2]
    have hv3 : ((valueOf ('-' :: t)).filter (fun c => c != '.')).all Char.isDigit = true := by
      rw [List.all_eq_true]
      intro c hmem
      obtain ⟨hm, hne⟩ := List.mem_filter.mp hmem
      rcases hall c hm with h | h
      · exact h
      · subst h; simp at hne
    have hv4 : (valueOf ('-' :: t)).contains '.' = true := by
      simp [List.contains_iff_exists_mem_beq]
      exact List.count_pos_iff.mp (by omega)
    have hv5 : ((valueOf ('-' :: t)).count '.' == 1) = false := by
      simp
      omega
    simp [hv1, hv2, hv3, hv4, hv5]
    intro hnot
    exact absurd (List.count_pos_iff.mp (show 0 < (valueOf ('-' :: t)).count '.' by omega)) hnot

theorem c5_amended_witness : stepLine initEnv (chrs "-bad 1.2.3") = .error () :=
  c5_amended.1 initEnv (chrs "-bad 1.2.3") (by decide) (by decide) (by decide) (by decide)
